import Mathlib

/-!
Verification of the nvidia-docker volume construction pipeline
(`tools/src/nvidia/volumes.go`).

Paths are modelled as lists of characters (`Str`); Go strings correspond to
`String.data`.  The filesystem visible to `Volume.Create` is modelled as a
list of existing path entries plus a list of symbolic links (link name and
target); a path is *present* when some entry equals it or lies strictly
below it.  Fallible external operations (`os.MkdirAll`, clone, `os.Symlink`,
`elf` metadata reads, `ldcache`, `which`, `filepath.EvalSymlinks`) are driven
by explicit oracles so that every execution of the Go control flow is a
value of a total function.
-/

deriving instance DecidableEq for Except

namespace NvidiaVolumes

abbrev Str := List Char

/-- `path.Join` of two already-clean path components, as used by the code
(`path.Join(a, b)` with clean arguments: empty parts collapse). -/
def pjoin (a b : Str) : Str :=
  if a = [] then b else if b = [] then a else a ++ '/' :: b

/-- `path.Base` on a clean path: the part after the last slash. -/
def baseName (s : Str) : Str :=
  (s.reverse.takeWhile (fun c => c ≠ '/')).reverse

def hasSlash (s : Str) : Bool := s.any (fun c => c = '/')

/-- `p` is the path `q` itself or an ancestor directory of it. -/
def pathPrefixB (p q : Str) : Bool :=
  decide (p = q) || decide ((p ++ ['/']) <+: q)

/-- A path exists in the filesystem entry list `paths` when some entry
equals it or lies strictly below it (directories exist through their
contents or as their own entries). -/
def present (p : Str) (paths : List Str) : Bool :=
  paths.any (fun q => pathPrefixB p q)

/-- `strings.TrimSpace`. -/
def trimSpace (s : Str) : Str :=
  ((s.dropWhile Char.isWhitespace).reverse.dropWhile Char.isWhitespace).reverse

/-- `path.IsAbs`. -/
def isAbs (s : Str) : Bool :=
  match s with
  | '/' :: _ => true
  | _ => false

/-- `strings.Replace(s, pat, rep, 1)`: replace the first occurrence. -/
def replaceFirst (s pat rep : Str) : Str :=
  match s with
  | [] => if pat = [] then rep else []
  | c :: rest =>
    if pat <+: (c :: rest) then rep ++ (c :: rest).drop pat.length
    else c :: replaceFirst rest pat rep

/-- Unanchored substring containment, the semantics of a Go regexp match
for a pattern with no anchors and no character classes. -/
def containsSub (pat s : Str) : Bool :=
  s.tails.any (fun t => decide (pat <+: t))

/-- `\w` or `-`, the character class of the capture group in
`^.*?/lib([\w-]+)\.so[\d.]*$`. -/
def isWordDash (c : Char) : Bool := c.isAlphanum || c = '_' || c = '-'

/-- `[\d.]`, the version-suffix character class. -/
def isDigitDot (c : Char) : Bool := c.isDigit || c = '.'

/-- Match of the base name against `lib([\w-]+)\.so[\d.]*$`, returning the
capture group.  Since neither `[\w-]`, `.so` nor `[\d.]` can contain a
slash, the Go regexp `^.*/lib([\w-]+)\.so[\d.]*$` matches exactly when the
part after the last slash has this shape; and since `[\w-]` excludes `.`,
the capture group is exactly the maximal word-dash run after `lib`. -/
def parseLibBase (b : Str) : Option Str :=
  if "lib".data <+: b then
    let rest := b.drop 3
    let name := rest.takeWhile isWordDash
    let after := rest.dropWhile isWordDash
    if name ≠ [] ∧ ".so".data <+: after ∧ (after.drop 3).all isDigitDot then
      some name
    else none
  else none

/-- The regexp `^.*/lib([\w-]+)\.so[\d.]*$` applied to the candidate file
path (`lib.FindStringSubmatch(file)`), returning the capture group `m[1]`.
The `.*/` part forces at least one slash in the path. -/
def libNameMatch (file : Str) : Option Str :=
  if hasSlash file then parseLibBase (baseName file) else none

/-- `regexp.MustCompile("libnvidia-e?glcore\\.so").MatchString d`. -/
def glcoreMatch (d : Str) : Bool :=
  containsSub "libnvidia-eglcore.so".data d || containsSub "libnvidia-glcore.so".data d

/-- `regexp.MustCompile("libGLdispatch\\.so").MatchString d`. -/
def gldispatchMatch (d : Str) : Bool :=
  containsSub "libGLdispatch.so".data d

def depMatch (d : Str) : Bool := glcoreMatch d || gldispatchMatch d

/-- `binary.LittleEndian.Uint64(s[off:])`: eight bytes starting at byte
offset `off`, least significant first. -/
def leUint64At (s : List Nat) (off : Nat) : Nat :=
  (List.range 8).foldl (fun acc i => acc + s.getD (off + i) 0 * 256 ^ i) 0

/-- The ABI-tag constant `0x6300000003` from the `nvidia-tls` rule. -/
def abiConst : Nat := 0x6300000003

/-- The ELF metadata of a candidate file that the code reads through
`debug/elf`: the `DT_NEEDED` string list, the `DT_SONAME` string list, and
the raw bytes of the `.note.ABI-tag` section.  `none` models the
corresponding read returning a non-nil error. -/
structure ElfObj where
  needed : Option (List Str)
  soname : Option (List Str)
  abiTag : Option (List Nat)
deriving DecidableEq

/-- `blacklisted(file, obj)` from `volumes.go`.  `.error ()` is the
`(false, err)` return with non-nil `err`. -/
def blacklisted (file : Str) (obj : ElfObj) : Except Unit Bool :=
  match libNameMatch file with
  | none => .ok false
  | some name =>
    if name = "GLESv1_CM".data ∨ name = "GLESv2".data ∨ name = "GL".data then
      match obj.needed with
      | none => .error ()
      | some deps => .ok (!deps.any depMatch)
    else if name = "nvidia-tls".data then
      match obj.abiTag with
      | none => .error ()
      | some s => .ok (decide (leUint64At s 24 ≠ abiConst))
    else .ok false

example : libNameMatch "/usr/lib/libGL.so.1".data = some "GL".data := by decide
example : libNameMatch "/usr/lib/libnvidia-tls.so.370.28".data = some "nvidia-tls".data := by decide
example : libNameMatch "libGL.so.1".data = none := by decide
example : libNameMatch "/usr/lib/libGLdispatch.so.0".data = some "GLdispatch".data := by decide
example : libNameMatch "/usr/lib/lib.so".data = none := by decide
example : libNameMatch "/usr/lib/libGL.sox".data = none := by decide
example : blacklisted "/usr/lib/libGL.so.1".data ⟨some ["libc.so.6".data], some [], some []⟩ = .ok true := by decide
example : blacklisted "/usr/lib/libGL.so.1".data ⟨some ["libGLdispatch.so.0".data], some [], some []⟩ = .ok false := by decide
example : blacklisted "/usr/lib/libGL.so.1".data ⟨some ["libnvidia-glcore.so.370.28".data], some [], some []⟩ = .ok false := by decide
example : blacklisted "/usr/lib/libfoo.so.1".data ⟨none, none, none⟩ = .ok false := by decide
example : leUint64At (List.replicate 24 0 ++ [3, 0, 0, 0, 0x63, 0, 0, 0]) 24 = abiConst := by decide
example : blacklisted "/usr/lib/libnvidia-tls.so.1".data
    ⟨none, none, some (List.replicate 24 0 ++ [3, 0, 0, 0, 0x63, 0, 0, 0])⟩ = .ok false := by decide
example : blacklisted "/usr/lib/libnvidia-tls.so.1".data
    ⟨none, none, some (List.replicate 32 7)⟩ = .ok true := by decide

/-- One entry of `Volume.dirs`: the in-volume directory name (`bin`, `lib`,
`lib64`) and the resolved host file paths to clone into it. -/
structure VolumeDir where
  name : Str
  files : List Str
deriving DecidableEq

/-- The `Volume` fields that `Create`, `Remove` and `Exists` read. -/
structure Volume where
  Name : Str
  Mountpoint : Str
  Path : Str
  Version : Str
  dirs : List VolumeDir
deriving DecidableEq

/-- A `FileCloneStrategy`: given source, destination and the current
filesystem entries, report failure and the resulting entries.  On failure
the entries may or may not contain the destination (a `Copy` that fails
after `os.Create` leaves a partial destination file behind). -/
abbrev CloneStrategy := Str → Str → List Str → Bool × List Str

/-- The failure oracles for the fallible primitives of `Create`, plus the
ELF metadata of each candidate file (`none` models `elf.Open` failing). -/
structure Env where
  elfOf : Str → Option ElfObj
  mkdirFail : Str → Bool
  cloneFail : Str → Bool
  linkFail : Str → Bool

/-- `LinkStrategy` (and `LinkOrCopyStrategy` with both halves failing):
fails exactly when the oracle says so, otherwise adds the destination. -/
def LinkStrategy (env : Env) : CloneStrategy :=
  fun _src dst paths => if env.cloneFail dst then (true, paths) else (false, dst :: paths)

/-- The build state threaded through `Create`: filesystem entries, the
symbolic links on disk (name, target), and the trace of links this call
created (`made` is history, not disk state). -/
structure BSt where
  paths : List Str
  links : List (Str × Str)
  made : List (Str × Str)
deriving DecidableEq

/-- Outcome of one step or loop of `Create`: success or error, each with
the filesystem state at that point. -/
inductive CRes where
  | ok (st : BSt)
  | fail (st : BSt)
deriving DecidableEq

/-- `os.MkdirAll(p, 0755)`: succeeds when the path already exists, may
fail otherwise; on success the directory is an entry of the filesystem. -/
def mkdirStep (env : Env) (p : Str) (st : BSt) : Option BSt :=
  if !present p st.paths && env.mkdirFail p then none
  else some { st with paths := p :: st.paths }

/-- `os.Symlink(tgt, name)` as used by `Create`: if the link name already
exists the error satisfies `os.IsExist` and the code continues without
creating anything; otherwise the oracle decides between another (fatal)
error and success. -/
def symlinkStep (env : Env) (tgt name : Str) (st : BSt) : CRes :=
  if present name st.paths then .ok st
  else if env.linkFail name then .fail st
  else .ok ⟨name :: st.paths, (name, tgt) :: st.links, st.made ++ [(name, tgt)]⟩

/-- The body of the inner file loop of `Volume.Create` for one candidate
file `f` of the directory descriptor named `dname` (on-disk directory
`dir`): `elf.Open`, `blacklisted`, clone, `DT_SONAME` read, SONAME
symlink, and the `libGLX_nvidia` → `GLX_indirect` extra symlink. -/
def createFile (env : Env) (s : CloneStrategy) (mount dname dir f : Str) (st : BSt) : CRes :=
  match env.elfOf f with
  | none => .fail st
  | some obj =>
    match blacklisted f obj with
    | .error _ => .fail st
    | .ok true => .ok st
    | .ok false =>
      let dst := pjoin dir (baseName f)
      let r := s f dst st.paths
      if r.1 then .fail { st with paths := r.2 }
      else
        let st1 : BSt := { st with paths := r.2 }
        match obj.soname with
        | none => .fail st1
        | some [] => .ok st1
        | some (so :: _) =>
          let tgt := pjoin (pjoin mount dname) (baseName f)
          let l1 := pjoin dir so
          match symlinkStep env tgt l1 st1 with
          | .fail st2 => .fail st2
          | .ok st2 =>
            if "libGLX_nvidia".data <+: so then
              symlinkStep env tgt (replaceFirst l1 "GLX_nvidia".data "GLX_indirect".data) st2
            else .ok st2

/-- The inner loop `for _, f := range d.files`. -/
def createFiles (env : Env) (s : CloneStrategy) (mount dname dir : Str) :
    List Str → BSt → CRes
  | [], st => .ok st
  | f :: fs, st =>
    match createFile env s mount dname dir f st with
    | .fail st1 => .fail st1
    | .ok st1 => createFiles env s mount dname dir fs st1

/-- The outer loop `for _, d := range v.dirs`. -/
def createDirs (env : Env) (s : CloneStrategy) (v : Volume) :
    List VolumeDir → BSt → CRes
  | [], st => .ok st
  | d :: ds, st =>
    let dir := pjoin (pjoin v.Path v.Version) d.name
    match mkdirStep env dir st with
    | none => .fail st
    | some st1 =>
      match createFiles env s v.Mountpoint d.name dir d.files st1 with
      | .fail st2 => .fail st2
      | .ok st2 => createDirs env s v ds st2

/-- `os.RemoveAll(p)` on the entries: drop everything at or below `p`. -/
def removeAllPaths (p : Str) (paths : List Str) : List Str :=
  paths.filter (fun q => !pathPrefixB p q)

def removeAllLinks (p : Str) (links : List (Str × Str)) : List (Str × Str) :=
  links.filter (fun e => !pathPrefixB p e.1)

/-- `Volume.Remove()` with no argument: `os.RemoveAll(path.Join(v.Path,
v.Version))` applied to the filesystem entries. -/
def RemoveGo (v : Volume) (paths : List Str) : List Str :=
  removeAllPaths (pjoin v.Path v.Version) paths

/-- Result of `Volume.Create`: whether a non-nil error was returned, the
final filesystem entries and links, and the trace of links created. -/
structure CreateOut where
  err : Bool
  paths : List Str
  links : List (Str × Str)
  made : List (Str × Str)
deriving DecidableEq

/-- `Volume.Create(s)` from initial filesystem entries `p0` and links
`l0`: the initial `os.MkdirAll(v.Path)` (whose failure returns before the
rollback `defer` is installed), the directory loop, and on any later error
the deferred `v.Remove()` of the `Path/Version` subtree. -/
def CreateGo (env : Env) (s : CloneStrategy) (v : Volume)
    (p0 : List Str) (l0 : List (Str × Str)) : CreateOut :=
  match mkdirStep env v.Path ⟨p0, l0, []⟩ with
  | none => ⟨true, p0, l0, []⟩
  | some st0 =>
    match createDirs env s v v.dirs st0 with
    | .ok st => ⟨false, st.paths, st.links, st.made⟩
    | .fail st =>
      ⟨true, RemoveGo v st.paths, removeAllLinks (pjoin v.Path v.Version) st.links, st.made⟩

/-- `Volume.Exists()`: `os.Stat(path.Join(v.Path, v.Version))` succeeds
exactly when the path is present; `os.IsNotExist` maps absence to
`(false, nil)`. -/
def ExistsGo (v : Volume) (paths : List Str) : Bool :=
  present (pjoin v.Path v.Version) paths

/-- The line-processing loop of `which(bins...)`, applied to the stdout
lines of the external `which` command (`filepath.EvalSymlinks` is the
oracle `ev`, `none` modelling a non-nil error): trim each line, silently
skip non-absolute lines, canonicalize the rest, fail fast on a
canonicalization error. -/
def whichGo (ev : Str → Option Str) : List Str → Option (List Str)
  | [] => some []
  | line :: rest =>
    let p := trimSpace line
    if isAbs p then
      match ev p with
      | none => none
      | some q => (whichGo ev rest).map (fun l => q :: l)
    else whichGo ev rest

/-- Error labels distinguishing where `LookupVolumes` failed. -/
inductive LErr where
  | drvE | openE | whichE | closeE
deriving DecidableEq

/-- The catalog directory-name constants `binDir`, `lib32Dir`, `lib64Dir`. -/
def binDir : Str := "bin".data
def lib32Dir : Str := "lib".data
def lib64Dir : Str := "lib64".data

/-- The external collaborators of `LookupVolumes`: `GetDriverVersion`,
`ldcache.Open/Lookup/Close`, the external `which` command's stdout,
`filepath.EvalSymlinks`, and the iteration order Go chooses for the
`Components` map (`iter` must be a permutation of the association list;
Go map iteration order is unspecified). -/
structure LookupEnv where
  drv : Option Str
  openOk : Bool
  look : List Str → List Str × List Str
  closeErr : Bool
  whichOut : List Str → List Str
  ev : Str → Option Str
  iter : List (Str × List Str) → List (Str × List Str)

/-- The `for t, c := range vol.Components` loop body: binaries resolve
through `which` into a `binDir` descriptor, libraries through
`cache.Lookup` into `lib32Dir` and `lib64Dir` descriptors, any other
category label is skipped. -/
def buildDirs (env : LookupEnv) : List (Str × List Str) → List VolumeDir → Option (List VolumeDir)
  | [], acc => some acc
  | (t, c) :: rest, acc =>
    if t = "binaries".data then
      match whichGo env.ev (env.whichOut c) with
      | none => none
      | some bins => buildDirs env rest (acc ++ [⟨binDir, bins⟩])
    else if t = "libraries".data then
      buildDirs env rest (acc ++ [⟨lib32Dir, (env.look c).1⟩, ⟨lib64Dir, (env.look c).2⟩])
    else buildDirs env rest acc

/-- A catalog entry: name, mountpoint and categorized component lists
(the Go `components` map modelled as an association list in source
order). -/
structure VolumeInfo where
  Name : Str
  Mountpoint : Str
  Components : List (Str × List Str)

/-- One volume of the catalog loop of `LookupVolumes`. -/
def buildVol (env : LookupEnv) (pre drv : Str) (vi : VolumeInfo) : Option Volume :=
  (buildDirs env (env.iter vi.Components) []).map
    (fun ds => ⟨vi.Name, vi.Mountpoint, pjoin pre vi.Name, drv, ds⟩)

/-- The `for i := range Volumes` loop, building the `VolumeMap`. -/
def lookupLoop (env : LookupEnv) (pre drv : Str) : List VolumeInfo → Option (List (Str × Volume))
  | [] => some []
  | vi :: rest =>
    match buildVol env pre drv vi with
    | none => none
    | some vol => (lookupLoop env pre drv rest).map (fun m => (vi.Name, vol) :: m)

/-- The binary name fragments of the `nvidia_driver` catalog entry. -/
def driverBins : List Str :=
  ["nvidia-cuda-mps-control".data,
   "nvidia-cuda-mps-server".data,
   "nvidia-debugdump".data,
   "nvidia-persistenced".data,
   "nvidia-smi".data]

/-- The library name fragments of the `nvidia_driver` catalog entry. -/
def driverLibs : List Str :=
      ["libnvidia-ml.so".data,
       "libcuda.so".data,
       "libnvidia-ptxjitcompiler.so".data,
       "libnvidia-fatbinaryloader.so".data,
       "libnvidia-opencl.so".data,
       "libnvidia-compiler.so".data,
       "libvdpau_nvidia.so".data,
       "libnvidia-encode.so".data,
       "libnvcuvid.so".data,
       "libnvidia-fbc.so".data,
       "libnvidia-ifr.so".data,
       "libGL.so".data,
       "libGLX.so".data,
       "libOpenGL.so".data,
       "libGLESv1_CM.so".data,
       "libGLESv2.so".data,
       "libEGL.so".data,
       "libGLdispatch.so".data,
       "libGLX_nvidia.so".data,
       "libEGL_nvidia.so".data,
       "libGLESv2_nvidia.so".data,
       "libGLESv1_CM_nvidia.so".data,
       "libnvidia-eglcore.so".data,
       "libnvidia-glcore.so".data,
       "libnvidia-tls.so".data,
       "libnvidia-glsi.so".data]

/-- The `"binaries"` entry of the catalog's `components` map. -/
def binariesEntry : Str × List Str := ("binaries".data, driverBins)

/-- The `"libraries"` entry of the catalog's `components` map. -/
def librariesEntry : Str × List Str := ("libraries".data, driverLibs)

/-- The `components` map of the `nvidia_driver` catalog entry, as an
association list in source order (Go iterates it in unspecified order). -/
def catComponents : List (Str × List Str) := [binariesEntry, librariesEntry]

/-- The static catalog `var Volumes` (commented-out entries excluded). -/
def Volumes : List VolumeInfo :=
  [⟨"nvidia_driver".data, "/usr/local/nvidia".data, catComponents⟩]

/-- `LookupVolumes(prefix)`: driver version, `ldcache.Open`, the catalog
loop, and the deferred `cache.Close` whose error is kept only when the
named return `err` is still nil.  The result carries the returned map (Go
returns the populated map even when only `Close` failed), the returned
error, and how many times `Close` ran. -/
def LookupVolumesGo (env : LookupEnv) (pre : Str) :
    Option (List (Str × Volume)) × Option LErr × Nat :=
  match env.drv with
  | none => (none, some .drvE, 0)
  | some drv =>
    if env.openOk then
      match lookupLoop env pre drv Volumes with
      | none => (none, some .whichE, 1)
      | some vols => (some vols, if env.closeErr then some .closeE else none, 1)
    else (none, some .openE, 0)

/-! ### Helper lemmas -/

/-- The state carried by a `CRes`, whether success or failure. -/
def CRes.toSt : CRes → BSt
  | .ok st => st
  | .fail st => st

theorem pathPrefixB_refl (p : Str) : pathPrefixB p p = true := by
  simp [pathPrefixB]

theorem pathPrefixB_of_pjoin {P V q : Str} (hP : P ≠ [])
    (h : pathPrefixB (pjoin P V) q = true) : pathPrefixB P q = true := by
  by_cases hV : V = []
  · rw [show pjoin P V = P by simp [pjoin, hP, hV]] at h
    exact h
  · have hpv : pjoin P V = P ++ '/' :: V := by simp [pjoin, hP, hV]
    rw [hpv] at h
    have hpre : P ++ ['/'] <+: P ++ '/' :: V := by
      rw [show P ++ '/' :: V = (P ++ ['/']) ++ V by simp]
      exact List.prefix_append (P ++ ['/']) V
    simp only [pathPrefixB, Bool.or_eq_true, decide_eq_true_eq] at h ⊢
    rcases h with h | h
    · exact Or.inr (h ▸ hpre)
    · exact Or.inr (hpre.trans ((List.prefix_append _ ['/']).trans h))

theorem present_eq_false_iff {p : Str} {paths : List Str} :
    present p paths = false ↔ ∀ q ∈ paths, pathPrefixB p q = false := by
  simp [present, List.any_eq_true]

theorem removeAllPaths_not_prefix {p : Str} {paths : List Str} :
    ∀ q ∈ removeAllPaths p paths, pathPrefixB p q = false := by
  intro q hq
  have := (List.mem_filter.mp hq).2
  simpa using this

theorem not_pathPrefixB_pjoin_self {P V : Str} (hV : V ≠ []) :
    pathPrefixB (pjoin P V) P = false := by
  have hlen : P.length < (pjoin P V).length := by
    by_cases hP : P = []
    · subst hP
      simp only [pjoin, if_pos rfl]
      simpa [List.length_pos] using hV
    · have hpv : pjoin P V = P ++ '/' :: V := by simp [pjoin, hP, hV]
      rw [hpv]
      simp
  simp only [pathPrefixB, Bool.or_eq_false_iff, decide_eq_false_iff_not]
  constructor
  · intro h
    rw [h] at hlen
    omega
  · intro h
    have := h.length_le
    simp at this
    omega

theorem mkdirStep_mono {env : Env} {p : Str} {st st' : BSt}
    (h : mkdirStep env p st = some st') {q : Str} (hq : q ∈ st.paths) :
    q ∈ st'.paths := by
  unfold mkdirStep at h
  split at h
  · exact Option.noConfusion h
  · cases h
    exact List.mem_cons_of_mem _ hq

theorem symlinkStep_mono {env : Env} {tgt name : Str} {st : BSt} {q : Str}
    (hq : q ∈ st.paths) : q ∈ (symlinkStep env tgt name st).toSt.paths := by
  unfold symlinkStep
  split
  · exact hq
  · split
    · exact hq
    · exact List.mem_cons_of_mem _ hq

/-- A clone strategy that never deletes filesystem entries (true of `Link`
and of `Copy`, which only create the destination). -/
def ClonePreserves (s : CloneStrategy) : Prop :=
  ∀ src dst ps q, q ∈ ps → q ∈ (s src dst ps).2

theorem createFile_mono {env : Env} {s : CloneStrategy} (hs : ClonePreserves s)
    {mount dname dir f : Str} {st : BSt} {q : Str} (hq : q ∈ st.paths) :
    q ∈ (createFile env s mount dname dir f st).toSt.paths := by
  unfold createFile
  dsimp only
  split
  · exact hq
  · split
    · exact hq
    · exact hq
    · have hq1 : q ∈ (s f (pjoin dir (baseName f)) st.paths).2 :=
        hs f (pjoin dir (baseName f)) st.paths q hq
      split
      · exact hq1
      · split
        · exact hq1
        · exact hq1
        · next so tl hso =>
            have h2 := @symlinkStep_mono env (pjoin (pjoin mount dname) (baseName f))
              (pjoin dir so)
              { st with paths := (s f (pjoin dir (baseName f)) st.paths).2 } q hq1
            split
            · next st2 hsl =>
                rw [hsl] at h2
                exact h2
            · next st2 hsl =>
                rw [hsl] at h2
                split
                · exact symlinkStep_mono h2
                · exact h2

theorem createFiles_mono {env : Env} {s : CloneStrategy} (hs : ClonePreserves s)
    {mount dname dir : Str} :
    ∀ (files : List Str) (st : BSt) {q : Str}, q ∈ st.paths →
      q ∈ (createFiles env s mount dname dir files st).toSt.paths
  | [], st, q, hq => hq
  | f :: fs, st, q, hq => by
    unfold createFiles
    have h1 := @createFile_mono env s hs mount dname dir f st q hq
    cases hcf : createFile env s mount dname dir f st with
    | fail st1 =>
      rw [hcf] at h1
      exact h1
    | ok st1 =>
      rw [hcf] at h1
      exact createFiles_mono hs fs st1 h1

theorem createDirs_mono {env : Env} {s : CloneStrategy} (hs : ClonePreserves s)
    {v : Volume} :
    ∀ (ds : List VolumeDir) (st : BSt) {q : Str}, q ∈ st.paths →
      q ∈ (createDirs env s v ds st).toSt.paths
  | [], st, q, hq => hq
  | d :: ds, st, q, hq => by
    unfold createDirs
    dsimp only
    split
    · exact hq
    · next st1 hmk =>
        have h1 := mkdirStep_mono hmk hq
        have h2 := @createFiles_mono env s hs v.Mountpoint d.name
          (pjoin (pjoin v.Path v.Version) d.name) d.files st1 q h1
        split
        · next st2 hcf =>
            rw [hcf] at h2
            exact h2
        · next st2 hcf =>
            rw [hcf] at h2
            exact createDirs_mono hs ds st2 h2

/-! ### C1: Create is all-or-nothing for the version tree -/

/-- C1: for every volume (with the nonempty host path every catalog volume
has) and every clone strategy, if `Volume.Create` returns a non-nil error
then no filesystem entry remains at or below `Path/Version` and a
subsequent `Exists()` returns false: the rollback `defer` removes the
whole version tree, and when even the initial `MkdirAll` failed nothing
below `Path` was ever created. -/
theorem create_error_leaves_no_version_tree (env : Env) (s : CloneStrategy)
    (v : Volume) (p0 : List Str) (l0 : List (Str × Str)) (hP : v.Path ≠ [])
    (herr : (CreateGo env s v p0 l0).err = true) :
    (∀ q ∈ (CreateGo env s v p0 l0).paths,
        pathPrefixB (pjoin v.Path v.Version) q = false) ∧
    ExistsGo v (CreateGo env s v p0 l0).paths = false := by
  have hmain : ∀ q ∈ (CreateGo env s v p0 l0).paths,
      pathPrefixB (pjoin v.Path v.Version) q = false := by
    intro q hq
    unfold CreateGo at herr hq
    rcases hmk : mkdirStep env v.Path ⟨p0, l0, []⟩ with _ | st0
    · rw [hmk] at hq
      dsimp only at hq
      unfold mkdirStep at hmk
      split at hmk
      · next hcond =>
          rw [Bool.and_eq_true, Bool.not_eq_true'] at hcond
          have hpres : present v.Path p0 = false := hcond.1
          have := present_eq_false_iff.mp hpres q hq
          exact Bool.eq_false_iff.mpr
            (fun habs => Bool.eq_false_iff.mp this (pathPrefixB_of_pjoin hP habs))
      · exact Option.noConfusion hmk
    · rw [hmk] at hq herr
      dsimp only at hq herr
      rcases hcd : createDirs env s v v.dirs st0 with st | st
      · rw [hcd] at herr
        exact Bool.noConfusion herr
      · rw [hcd] at hq
        exact removeAllPaths_not_prefix q hq
  refine ⟨hmain, ?_⟩
  unfold ExistsGo
  exact present_eq_false_iff.mpr hmain

/-- Witness for C1: a one-file volume whose candidate file fails to open
as an ELF object; `Create` errors, the tree is gone and `Exists` is
false. -/
def envFailOpen : Env :=
  { elfOf := fun _ => none
    mkdirFail := fun _ => false
    cloneFail := fun _ => false
    linkFail := fun _ => false }

def volW : Volume :=
  { Name := "nvidia_driver".data
    Mountpoint := "/usr/local/nvidia".data
    Path := "/v/nvidia_driver".data
    Version := "1".data
    dirs := [⟨"lib".data, ["/host/libcuda.so.1".data]⟩] }

theorem create_error_leaves_no_version_tree_witness :
    volW.Path ≠ [] ∧
    (CreateGo envFailOpen (LinkStrategy envFailOpen) volW [] []).err = true ∧
    ((∀ q ∈ (CreateGo envFailOpen (LinkStrategy envFailOpen) volW [] []).paths,
        pathPrefixB (pjoin volW.Path volW.Version) q = false) ∧
      ExistsGo volW (CreateGo envFailOpen (LinkStrategy envFailOpen) volW [] []).paths = false) :=
  ⟨by decide, by decide,
    create_error_leaves_no_version_tree envFailOpen (LinkStrategy envFailOpen) volW [] []
      (by decide) (by decide)⟩

/-! ### C10: the base directory survives a versioned rollback -/

/-- C10: when `Create` fails after its initial `MkdirAll(v.Path)`
succeeded (the claim presupposes the base directory was created) and the
clone strategy never deletes entries, the rollback removes only the
`Path/Version` subtree: with a non-empty `Version` the base directory
`Path` is still present afterwards, and with an empty `Version` the
subtree collapses to `Path` itself, which is then removed. -/
theorem create_fail_keeps_base_dir (env : Env) (s : CloneStrategy)
    (v : Volume) (p0 : List Str) (l0 : List (Str × Str))
    (hs : ClonePreserves s)
    (hmk : mkdirStep env v.Path ⟨p0, l0, []⟩ ≠ none)
    (herr : (CreateGo env s v p0 l0).err = true) :
    (v.Version ≠ [] → present v.Path (CreateGo env s v p0 l0).paths = true) ∧
    (v.Version = [] → present v.Path (CreateGo env s v p0 l0).paths = false) := by
  unfold CreateGo at herr ⊢
  rcases hm : mkdirStep env v.Path ⟨p0, l0, []⟩ with _ | st0
  · exact absurd hm hmk
  · rw [hm] at herr
    dsimp only at herr ⊢
    rcases hcd : createDirs env s v v.dirs st0 with st | st
    · rw [hcd] at herr
      dsimp only at herr
      exact Bool.noConfusion herr
    · rw [hcd] at herr
      dsimp only at herr ⊢
      have hmem : v.Path ∈ st.paths := by
        have h0 : v.Path ∈ st0.paths := by
          unfold mkdirStep at hm
          split at hm
          · exact Option.noConfusion hm
          · cases hm
            exact List.mem_cons_self _ _
        have := @createDirs_mono env s hs v v.dirs st0 v.Path h0
        rw [hcd] at this
        exact this
      constructor
      · intro hV
        have hkeep : v.Path ∈ RemoveGo v st.paths := by
          unfold RemoveGo removeAllPaths
          exact List.mem_filter.mpr
            ⟨hmem, by rw [not_pathPrefixB_pjoin_self hV]; rfl⟩
        unfold present
        rw [List.any_eq_true]
        exact ⟨v.Path, hkeep, pathPrefixB_refl _⟩
      · intro hV
        apply present_eq_false_iff.mpr
        intro q hq
        have := removeAllPaths_not_prefix (p := pjoin v.Path v.Version) q hq
        rwa [hV, show pjoin v.Path [] = v.Path by simp [pjoin]] at this

/-- Witness for C10: a clone failure mid-build with a non-empty version;
the base directory survives the rollback. -/
def envCloneFail : Env :=
  { elfOf := fun _ => some ⟨some [], some ["libcuda.so.5".data], some []⟩
    mkdirFail := fun _ => false
    cloneFail := fun _ => true
    linkFail := fun _ => false }

theorem create_fail_keeps_base_dir_witness :
    ClonePreserves (LinkStrategy envCloneFail) ∧
    mkdirStep envCloneFail volW.Path ⟨[], [], []⟩ ≠ none ∧
    (CreateGo envCloneFail (LinkStrategy envCloneFail) volW [] []).err = true ∧
    ((volW.Version ≠ [] →
        present volW.Path (CreateGo envCloneFail (LinkStrategy envCloneFail) volW [] []).paths = true) ∧
      (volW.Version = [] →
        present volW.Path (CreateGo envCloneFail (LinkStrategy envCloneFail) volW [] []).paths = false)) :=
  ⟨fun _src dst ps q hq => by
      unfold LinkStrategy
      split
      · exact hq
      · exact List.mem_cons_of_mem _ hq,
    by decide, by decide,
    create_fail_keeps_base_dir envCloneFail (LinkStrategy envCloneFail) volW [] []
      (fun _src dst ps q hq => by
        unfold LinkStrategy
        split
        · exact hq
        · exact List.mem_cons_of_mem _ hq)
      (by decide) (by decide)⟩

/-! ### C7: ELF read failures are fatal -/

/-- Inversion of a successful `createFile`: the file opened as an ELF
object, `blacklisted` returned without error, and when the file was not
blacklisted its `DT_SONAME` read also succeeded. -/
theorem createFile_ok_inv {env : Env} {s : CloneStrategy}
    {mount dname dir f : Str} {st st' : BSt}
    (h : createFile env s mount dname dir f st = .ok st') :
    ∃ obj, env.elfOf f = some obj ∧
      (∃ b, blacklisted f obj = .ok b ∧ (b = false → obj.soname ≠ none)) := by
  unfold createFile at h
  dsimp only at h
  split at h
  · exact CRes.noConfusion h
  · next obj hobj =>
      refine ⟨obj, hobj, ?_⟩
      split at h
      · exact CRes.noConfusion h
      · next hbl => exact ⟨true, hbl, fun hb => Bool.noConfusion hb⟩
      · next hbl =>
          refine ⟨false, hbl, fun _ => ?_⟩
          split at h
          · exact CRes.noConfusion h
          · split at h
            · next hso => exact CRes.noConfusion h
            · next hso => rw [hso]; exact fun hc => Option.noConfusion hc
            · next so tl hso => rw [hso]; exact fun hc => Option.noConfusion hc

theorem createFiles_ok_inv {env : Env} {s : CloneStrategy}
    {mount dname dir : Str} :
    ∀ {files : List Str} {st st' : BSt},
      createFiles env s mount dname dir files st = .ok st' →
      ∀ f ∈ files, ∃ obj, env.elfOf f = some obj ∧
        (∃ b, blacklisted f obj = .ok b ∧ (b = false → obj.soname ≠ none))
  | [], _, _, _ => by simp
  | f :: fs, st, st', h => by
    unfold createFiles at h
    rcases hcf : createFile env s mount dname dir f st with st1 | st1
    · rw [hcf] at h
      dsimp only at h
      intro g hg
      rcases List.mem_cons.mp hg with rfl | hg'
      · exact createFile_ok_inv hcf
      · exact createFiles_ok_inv h g hg'
    · rw [hcf] at h
      exact CRes.noConfusion h

theorem createDirs_ok_inv {env : Env} {s : CloneStrategy} {v : Volume} :
    ∀ {ds : List VolumeDir} {st st' : BSt},
      createDirs env s v ds st = .ok st' →
      ∀ d ∈ ds, ∀ f ∈ d.files, ∃ obj, env.elfOf f = some obj ∧
        (∃ b, blacklisted f obj = .ok b ∧ (b = false → obj.soname ≠ none))
  | [], _, _, _ => by simp
  | d :: ds, st, st', h => by
    unfold createDirs at h
    dsimp only at h
    rcases hmk : mkdirStep env (pjoin (pjoin v.Path v.Version) d.name) st with _ | st1
    · rw [hmk] at h
      exact CRes.noConfusion h
    · rw [hmk] at h
      dsimp only at h
      rcases hcf : createFiles env s v.Mountpoint d.name
          (pjoin (pjoin v.Path v.Version) d.name) d.files st1 with st2 | st2
      · rw [hcf] at h
        dsimp only at h
        intro e he
        rcases List.mem_cons.mp he with rfl | he'
        · exact createFiles_ok_inv hcf
        · exact createDirs_ok_inv h e he'
      · rw [hcf] at h
        exact CRes.noConfusion h

/-- C7: in a `Create` run that returns nil, every candidate file of every
directory descriptor opened as an ELF object, its `blacklisted` check
read its metadata (`DT_NEEDED`, `.note.ABI-tag`) without error, and every
non-blacklisted file's `DT_SONAME` read succeeded.  Contrapositive: any
such read failure on a file the loop reaches makes `Create` return an
error — a read failure is never treated as "not blacklisted". -/
theorem create_ok_requires_all_elf_reads (env : Env) (s : CloneStrategy)
    (v : Volume) (p0 : List Str) (l0 : List (Str × Str))
    (hok : (CreateGo env s v p0 l0).err = false) :
    ∀ d ∈ v.dirs, ∀ f ∈ d.files, ∃ obj, env.elfOf f = some obj ∧
      (∃ b, blacklisted f obj = .ok b ∧ (b = false → obj.soname ≠ none)) := by
  unfold CreateGo at hok
  rcases hm : mkdirStep env v.Path ⟨p0, l0, []⟩ with _ | st0
  · rw [hm] at hok
    exact Bool.noConfusion hok
  · rw [hm] at hok
    dsimp only at hok
    rcases hcd : createDirs env s v v.dirs st0 with st | st
    · exact createDirs_ok_inv hcd
    · rw [hcd] at hok
      exact Bool.noConfusion hok

/-- Witness for C7: a successful one-file build; the conclusion exhibits
the successfully read metadata. -/
def envOkBuild : Env :=
  { elfOf := fun _ => some ⟨some [], some ["libcuda.so.5".data], some []⟩
    mkdirFail := fun _ => false
    cloneFail := fun _ => false
    linkFail := fun _ => false }

theorem create_ok_requires_all_elf_reads_witness :
    (CreateGo envOkBuild (LinkStrategy envOkBuild) volW [] []).err = false ∧
    (∀ d ∈ volW.dirs, ∀ f ∈ d.files, ∃ obj, envOkBuild.elfOf f = some obj ∧
      (∃ b, blacklisted f obj = .ok b ∧ (b = false → obj.soname ≠ none))) :=
  ⟨by decide,
    create_ok_requires_all_elf_reads envOkBuild (LinkStrategy envOkBuild) volW [] []
      (by decide)⟩

/-! ### C6: symlink targets are mount-relative; GLX files get two links -/

theorem symlinkStep_made_mem {env : Env} {tgt name : Str} {st : BSt} {e : Str × Str}
    (h : e ∈ (symlinkStep env tgt name st).toSt.made) :
    e ∈ st.made ∨ e = (name, tgt) := by
  unfold symlinkStep at h
  split at h
  · exact Or.inl h
  · split at h
    · exact Or.inl h
    · rcases List.mem_append.mp h with h1 | h1
      · exact Or.inl h1
      · exact Or.inr (List.mem_singleton.mp h1)

theorem createFile_made_mem {env : Env} {s : CloneStrategy}
    {mount dname dir f : Str} {st : BSt} {e : Str × Str}
    (h : e ∈ (createFile env s mount dname dir f st).toSt.made) :
    e ∈ st.made ∨ e.2 = pjoin (pjoin mount dname) (baseName f) := by
  unfold createFile at h
  dsimp only at h
  split at h
  · exact Or.inl h
  · split at h
    · exact Or.inl h
    · exact Or.inl h
    · split at h
      · exact Or.inl h
      · split at h
        · exact Or.inl h
        · exact Or.inl h
        · next so tl hso =>
            rcases hsl : symlinkStep env (pjoin (pjoin mount dname) (baseName f))
                (pjoin dir so)
                { st with paths := (s f (pjoin dir (baseName f)) st.paths).2 } with st2 | st2
            · rw [hsl] at h
              dsimp only at h
              split at h
              · have h2 := symlinkStep_made_mem h
                rcases h2 with h2 | h2
                · have h3 := symlinkStep_made_mem (by rw [hsl]; exact h2 :
                    e ∈ (symlinkStep env (pjoin (pjoin mount dname) (baseName f))
                      (pjoin dir so)
                      { st with paths := (s f (pjoin dir (baseName f)) st.paths).2 }).toSt.made)
                  rcases h3 with h3 | h3
                  · exact Or.inl h3
                  · exact Or.inr (by rw [h3])
                · exact Or.inr (by rw [h2])
              · have h3 := symlinkStep_made_mem (by rw [hsl]; exact h :
                  e ∈ (symlinkStep env (pjoin (pjoin mount dname) (baseName f))
                    (pjoin dir so)
                    { st with paths := (s f (pjoin dir (baseName f)) st.paths).2 }).toSt.made)
                rcases h3 with h3 | h3
                · exact Or.inl h3
                · exact Or.inr (by rw [h3])
            · rw [hsl] at h
              dsimp only at h
              have h3 := symlinkStep_made_mem (by rw [hsl]; exact h :
                e ∈ (symlinkStep env (pjoin (pjoin mount dname) (baseName f))
                  (pjoin dir so)
                  { st with paths := (s f (pjoin dir (baseName f)) st.paths).2 }).toSt.made)
              rcases h3 with h3 | h3
              · exact Or.inl h3
              · exact Or.inr (by rw [h3])

theorem createFiles_made_mem {env : Env} {s : CloneStrategy} {mount dname dir : Str} :
    ∀ {files : List Str} {st : BSt} {e : Str × Str},
      e ∈ (createFiles env s mount dname dir files st).toSt.made →
      e ∈ st.made ∨ ∃ f ∈ files, e.2 = pjoin (pjoin mount dname) (baseName f)
  | [], st, e, h => Or.inl h
  | f :: fs, st, e, h => by
    unfold createFiles at h
    rcases hcf : createFile env s mount dname dir f st with st1 | st1
    · rw [hcf] at h
      dsimp only at h
      rcases createFiles_made_mem h with h1 | ⟨g, hg, hgt⟩
      · have h2 := createFile_made_mem (by rw [hcf]; exact h1 :
          e ∈ (createFile env s mount dname dir f st).toSt.made)
        rcases h2 with h2 | h2
        · exact Or.inl h2
        · exact Or.inr ⟨f, List.mem_cons_self _ _, h2⟩
      · exact Or.inr ⟨g, List.mem_cons_of_mem _ hg, hgt⟩
    · rw [hcf] at h
      dsimp only at h
      have h2 := createFile_made_mem (by rw [hcf]; exact h :
        e ∈ (createFile env s mount dname dir f st).toSt.made)
      rcases h2 with h2 | h2
      · exact Or.inl h2
      · exact Or.inr ⟨f, List.mem_cons_self _ _, h2⟩

theorem createDirs_made_mem {env : Env} {s : CloneStrategy} {v : Volume} :
    ∀ {ds : List VolumeDir} {st : BSt} {e : Str × Str},
      e ∈ (createDirs env s v ds st).toSt.made →
      e ∈ st.made ∨ ∃ d ∈ ds, ∃ f ∈ d.files,
        e.2 = pjoin (pjoin v.Mountpoint d.name) (baseName f)
  | [], st, e, h => Or.inl h
  | d :: ds, st, e, h => by
    unfold createDirs at h
    dsimp only at h
    rcases hmk : mkdirStep env (pjoin (pjoin v.Path v.Version) d.name) st with _ | st1
    · rw [hmk] at h
      exact Or.inl h
    · rw [hmk] at h
      dsimp only at h
      have hst1 : st1.made = st.made := by
        unfold mkdirStep at hmk
        split at hmk
        · exact Option.noConfusion hmk
        · cases hmk
          rfl
      rcases hcf : createFiles env s v.Mountpoint d.name
          (pjoin (pjoin v.Path v.Version) d.name) d.files st1 with st2 | st2
      · rw [hcf] at h
        dsimp only at h
        rcases createDirs_made_mem h with h1 | ⟨d', hd', g, hg, hgt⟩
        · have h2 := createFiles_made_mem (by rw [hcf]; exact h1 :
            e ∈ (createFiles env s v.Mountpoint d.name
              (pjoin (pjoin v.Path v.Version) d.name) d.files st1).toSt.made)
          rcases h2 with h2 | ⟨g, hg, hgt⟩
          · rw [hst1] at h2
            exact Or.inl h2
          · exact Or.inr ⟨d, List.mem_cons_self _ _, g, hg, hgt⟩
        · exact Or.inr ⟨d', List.mem_cons_of_mem _ hd', g, hg, hgt⟩
      · rw [hcf] at h
        dsimp only at h
        have h2 := createFiles_made_mem (by rw [hcf]; exact h :
          e ∈ (createFiles env s v.Mountpoint d.name
            (pjoin (pjoin v.Path v.Version) d.name) d.files st1).toSt.made)
        rcases h2 with h2 | ⟨g, hg, hgt⟩
        · rw [hst1] at h2
          exact Or.inl h2
        · exact Or.inr ⟨d, List.mem_cons_self _ _, g, hg, hgt⟩

/-- C6: (1) in a `Create` run that returns nil, every symlink the run
created has as target exactly `Mountpoint/categoryDirName/baseName` of
one of the volume's candidate files — the mount-relative convention, with
no host build-path prefix; (2) a reached file whose SONAME starts with
`libGLX_nvidia` and whose two link names are fresh produces exactly two
created symlinks: the SONAME link and the `GLX_indirect`-renamed link,
both pointing at that same mount-relative target. -/
theorem create_symlinks_mount_relative_and_glx_pair :
    (∀ (env : Env) (s : CloneStrategy) (v : Volume) (p0 : List Str)
        (l0 : List (Str × Str)),
      (CreateGo env s v p0 l0).err = false →
      ∀ e ∈ (CreateGo env s v p0 l0).made,
        ∃ d ∈ v.dirs, ∃ f ∈ d.files,
          e.2 = pjoin (pjoin v.Mountpoint d.name) (baseName f)) ∧
    (∀ (env : Env) (s : CloneStrategy) (mount dname dir f : Str) (st : BSt)
        (obj : ElfObj) (ps : List Str) (so : Str) (tl : List Str),
      env.elfOf f = some obj →
      blacklisted f obj = .ok false →
      s f (pjoin dir (baseName f)) st.paths = (false, ps) →
      obj.soname = some (so :: tl) →
      "libGLX_nvidia".data <+: so →
      present (pjoin dir so) ps = false →
      env.linkFail (pjoin dir so) = false →
      present (replaceFirst (pjoin dir so) "GLX_nvidia".data "GLX_indirect".data)
        (pjoin dir so :: ps) = false →
      env.linkFail (replaceFirst (pjoin dir so) "GLX_nvidia".data "GLX_indirect".data) = false →
      createFile env s mount dname dir f st =
        .ok ⟨replaceFirst (pjoin dir so) "GLX_nvidia".data "GLX_indirect".data ::
               pjoin dir so :: ps,
             (replaceFirst (pjoin dir so) "GLX_nvidia".data "GLX_indirect".data,
               pjoin (pjoin mount dname) (baseName f)) ::
               (pjoin dir so, pjoin (pjoin mount dname) (baseName f)) :: st.links,
             st.made ++ [(pjoin dir so, pjoin (pjoin mount dname) (baseName f)),
               (replaceFirst (pjoin dir so) "GLX_nvidia".data "GLX_indirect".data,
                 pjoin (pjoin mount dname) (baseName f))]⟩) := by
  constructor
  · intro env s v p0 l0 hok e he
    unfold CreateGo at hok he
    rcases hm : mkdirStep env v.Path ⟨p0, l0, []⟩ with _ | st0
    · rw [hm] at hok
      exact Bool.noConfusion hok
    · rw [hm] at hok he
      dsimp only at hok he
      rcases hcd : createDirs env s v v.dirs st0 with st | st
      · rw [hcd] at he
        dsimp only at he
        have h2 := createDirs_made_mem (by rw [hcd]; exact he :
          e ∈ (createDirs env s v v.dirs st0).toSt.made)
        rcases h2 with h2 | h2
        · have hst0 : st0.made = [] := by
            unfold mkdirStep at hm
            split at hm
            · exact Option.noConfusion hm
            · cases hm
              rfl
          rw [hst0] at h2
          exact absurd h2 (List.not_mem_nil e)
        · exact h2
      · rw [hcd] at hok
        exact Bool.noConfusion hok
  · intro env s mount dname dir f st obj ps so tl hE hB hclone hso hglx hp1 hl1 hp2 hl2
    simp only [createFile, symlinkStep, hE, hB, hclone, hso, hp1, hl1, hp2, hl2,
      if_pos hglx]
    simp [List.append_assoc, hp1, hl1, hp2, hl2]

/-- Witness data for C6: a fresh build of a `libGLX_nvidia` library file. -/
def fGLX : Str := "/host/libGLX_nvidia.so.370.28".data
def soGLX : Str := "libGLX_nvidia.so.0".data
def objGLX : ElfObj := ⟨some [], some [soGLX], some []⟩
def envGLX : Env :=
  { elfOf := fun g => if g = fGLX then some objGLX else none
    mkdirFail := fun _ => false
    cloneFail := fun _ => false
    linkFail := fun _ => false }
def dirGLX : Str := "/v/nvidia_driver/1/lib".data
def mountGLX : Str := "/usr/local/nvidia".data
def l1GLX : Str := pjoin dirGLX soGLX
def l2GLX : Str := replaceFirst l1GLX "GLX_nvidia".data "GLX_indirect".data
def tgtGLX : Str := pjoin (pjoin mountGLX "lib".data) (baseName fGLX)
def psGLX : List Str := [pjoin dirGLX (baseName fGLX)]

theorem create_symlinks_mount_relative_and_glx_pair_witness :
    "libGLX_nvidia".data <+: soGLX ∧
    envGLX.elfOf fGLX = some objGLX ∧
    createFile envGLX (LinkStrategy envGLX) mountGLX "lib".data dirGLX fGLX ⟨[], [], []⟩ =
      .ok ⟨l2GLX :: l1GLX :: psGLX,
           [(l2GLX, tgtGLX), (l1GLX, tgtGLX)],
           [(l1GLX, tgtGLX), (l2GLX, tgtGLX)]⟩ :=
  ⟨by decide, by decide,
    create_symlinks_mount_relative_and_glx_pair.2 envGLX (LinkStrategy envGLX)
      mountGLX "lib".data dirGLX fGLX ⟨[], [], []⟩ objGLX psGLX soGLX []
      (by decide) (by decide) (by decide) (by decide) (by decide) (by decide)
      (by decide) (by decide) (by decide)⟩

/-! ### C2: symlink EEXIST handling -/

/-- The SONAME link name of the C2 scenario: the candidate file
`/host/libcuda.so.1` declares SONAME `libcuda.so.5`, so `Create` links
`<Path>/<Version>/lib/libcuda.so.5`. -/
def l1C2 : Str := "/v/nvidia_driver/1/lib/libcuda.so.5".data

/-- The conflicting target the pre-existing link points at. -/
def oldTgtC2 : Str := "/other/target".data

/-- The mount-relative target `Create` would use for this file. -/
def tgtC2 : Str := "/usr/local/nvidia/lib/libcuda.so.1".data

/-- Counterexample to C2 as stated: the SONAME link name already exists
but points at a *different* target; `os.Symlink` fails with `EEXIST`,
`os.IsExist` is true, and `Create` treats it as success — it does **not**
return an error, contradicting the claim that a conflicting existing link
is fatal. -/
theorem symlink_conflict_not_fatal_counterexample :
    oldTgtC2 ≠ tgtC2 ∧
    (l1C2, oldTgtC2) ∈
      (CreateGo envOkBuild (LinkStrategy envOkBuild) volW [l1C2] [(l1C2, oldTgtC2)]).links ∧
    (CreateGo envOkBuild (LinkStrategy envOkBuild) volW [l1C2] [(l1C2, oldTgtC2)]).err = false := by
  refine ⟨by decide, by decide, by decide⟩

/-- C2 as amended: a symlink-creation failure whose cause is that the
link name already exists (`os.IsExist`, regardless of whether the
existing entry's target matches) is treated as success and nothing is
created; any other symlink failure is fatal — at the step it yields the
failure state, and the file build returns an error. -/
theorem symlink_exist_success_other_failure_fatal :
    (∀ (env : Env) (tgt name : Str) (st : BSt),
      present name st.paths = true → symlinkStep env tgt name st = .ok st) ∧
    (∀ (env : Env) (tgt name : Str) (st : BSt),
      present name st.paths = false → env.linkFail name = true →
      symlinkStep env tgt name st = .fail st) ∧
    (∀ (env : Env) (s : CloneStrategy) (mount dname dir f : Str) (st : BSt)
        (obj : ElfObj) (ps : List Str) (so : Str) (tl : List Str),
      env.elfOf f = some obj →
      blacklisted f obj = .ok false →
      s f (pjoin dir (baseName f)) st.paths = (false, ps) →
      obj.soname = some (so :: tl) →
      present (pjoin dir so) ps = false →
      env.linkFail (pjoin dir so) = true →
      createFile env s mount dname dir f st = .fail { st with paths := ps }) := by
  refine ⟨?_, ?_, ?_⟩
  · intro env tgt name st h
    unfold symlinkStep
    rw [if_pos h]
  · intro env tgt name st h hf
    unfold symlinkStep
    rw [if_neg (by simp [h]), if_pos hf]
  · intro env s mount dname dir f st obj ps so tl hE hB hclone hso hp1 hl1
    simp only [createFile, symlinkStep, hE, hB, hclone, hso, hp1, hl1]
    simp

/-- Witness for the amended C2: part one at a pre-existing link with a
different target, part three at a failing fresh symlink. -/
def stC2 : BSt := ⟨[l1C2], [(l1C2, oldTgtC2)], []⟩

def envLinkFail : Env :=
  { elfOf := fun _ => some ⟨some [], some ["libcuda.so.5".data], some []⟩
    mkdirFail := fun _ => false
    cloneFail := fun _ => false
    linkFail := fun _ => true }

theorem symlink_exist_success_other_failure_fatal_witness :
    present l1C2 stC2.paths = true ∧
    symlinkStep envOkBuild tgtC2 l1C2 stC2 = .ok stC2 ∧
    createFile envLinkFail (LinkStrategy envLinkFail) mountGLX "lib".data
        "/v/nvidia_driver/1/lib".data "/host/libcuda.so.1".data ⟨[], [], []⟩ =
      .fail ⟨["/v/nvidia_driver/1/lib/libcuda.so.1".data], [], []⟩ :=
  ⟨by decide,
    symlink_exist_success_other_failure_fatal.1 envOkBuild tgtC2 l1C2 stC2 (by decide),
    symlink_exist_success_other_failure_fatal.2.2 envLinkFail (LinkStrategy envLinkFail)
      mountGLX "lib".data "/v/nvidia_driver/1/lib".data "/host/libcuda.so.1".data
      ⟨[], [], []⟩ ⟨some [], some ["libcuda.so.5".data], some []⟩
      ["/v/nvidia_driver/1/lib/libcuda.so.1".data] "libcuda.so.5".data []
      (by decide) (by decide) (by decide) (by decide) (by decide) (by decide)⟩

/-! ### C3: the GL-family blacklist rule -/

/-- C3: for a candidate file whose name matches `lib<name>.so[.<ver>]`
with `<name>` in {GL, GLESv1_CM, GLESv2} and whose `DT_NEEDED` list is
readable, `blacklisted` returns true exactly when no dependency matches
`libnvidia-e?glcore.so` or `libGLdispatch.so`. -/
theorem gl_family_blacklist_iff (file : Str) (obj : ElfObj) (name : Str)
    (deps : List Str)
    (hname : libNameMatch file = some name)
    (hfam : name = "GL".data ∨ name = "GLESv1_CM".data ∨ name = "GLESv2".data)
    (hdeps : obj.needed = some deps) :
    blacklisted file obj = .ok (!deps.any depMatch) ∧
    (blacklisted file obj = .ok true ↔ ∀ d ∈ deps, depMatch d = false) := by
  have hval : blacklisted file obj = .ok (!deps.any depMatch) := by
    unfold blacklisted
    rw [hname]
    dsimp only
    rw [if_pos (by tauto), hdeps]
  refine ⟨hval, ?_⟩
  rw [hval]
  constructor
  · intro h
    have : (!deps.any depMatch) = true := by
      have := Except.ok.inj h
      exact this
    intro d hd
    rw [Bool.not_eq_true', List.any_eq_false] at this
    simpa using this d hd
  · intro h
    have : deps.any depMatch = false := by
      rw [List.any_eq_false]
      intro d hd
      simp [h d hd]
    rw [this]
    decide

/-- Witness for C3: `libGL.so.1` without a matching dependency is
blacklisted; with `libGLdispatch.so.0` among its dependencies it is
not. -/
theorem gl_family_blacklist_iff_witness :
    libNameMatch "/usr/lib/libGL.so.1".data = some "GL".data ∧
    blacklisted "/usr/lib/libGL.so.1".data ⟨some ["libc.so.6".data], some [], some []⟩ =
      .ok true ∧
    blacklisted "/usr/lib/libGL.so.1".data
        ⟨some ["libGLdispatch.so.0".data, "libc.so.6".data], some [], some []⟩ =
      .ok false := by
  refine ⟨by decide, ?_, ?_⟩
  · have h := gl_family_blacklist_iff "/usr/lib/libGL.so.1".data
      ⟨some ["libc.so.6".data], some [], some []⟩ "GL".data ["libc.so.6".data]
      (by decide) (Or.inl rfl) rfl
    rw [h.1]
    decide
  · have h := gl_family_blacklist_iff "/usr/lib/libGL.so.1".data
      ⟨some ["libGLdispatch.so.0".data, "libc.so.6".data], some [], some []⟩ "GL".data
      ["libGLdispatch.so.0".data, "libc.so.6".data]
      (by decide) (Or.inl rfl) rfl
    rw [h.1]
    decide

/-! ### C4: the nvidia-tls ABI-tag rule reads byte offset 24, not the
second word -/

/-- The `.note.ABI-tag` section bytes of the C4 counterexample: the
second 8-byte word (offset 8) is zero, the word at offset 24 equals the
ABI constant. -/
def abiBytesC4 : List Nat := List.replicate 24 0 ++ [3, 0, 0, 0, 0x63, 0, 0, 0]

/-- Counterexample to C4 as stated: the code compares
`binary.LittleEndian.Uint64(s[24:])` — the *fourth* 8-byte word of the
section data — not the second.  Here the second word (offset 8) differs
from `0x6300000003`, so the claim says the file is blacklisted, yet
`blacklisted` returns false because the word at offset 24 matches. -/
theorem tls_second_word_counterexample :
    leUint64At abiBytesC4 8 ≠ abiConst ∧
    32 ≤ abiBytesC4.length ∧
    blacklisted "/usr/lib/libnvidia-tls.so.1".data ⟨none, none, some abiBytesC4⟩ =
      .ok false := by
  refine ⟨by decide, by decide, by decide⟩

/-- C4 as amended: for a file matching `libnvidia-tls.so[.<ver>]` with
readable ABI-tag section data of at least 32 bytes, `blacklisted` is true
exactly when the 8-byte little-endian word at byte offset 24 (the fourth
word of the section data) differs from `0x6300000003`; and a file whose
matched library name is none of GL, GLESv1_CM, GLESv2, nvidia-tls is
never blacklisted by either rule. -/
theorem tls_abi_word_and_other_names :
    (∀ (file : Str) (obj : ElfObj) (s : List Nat),
      libNameMatch file = some "nvidia-tls".data →
      obj.abiTag = some s →
      blacklisted file obj = .ok (decide (leUint64At s 24 ≠ abiConst)) ∧
      (blacklisted file obj = .ok true ↔ leUint64At s 24 ≠ abiConst)) ∧
    (∀ (file : Str) (obj : ElfObj),
      (∀ n, libNameMatch file = some n →
        n ≠ "GL".data ∧ n ≠ "GLESv1_CM".data ∧ n ≠ "GLESv2".data ∧
        n ≠ "nvidia-tls".data) →
      blacklisted file obj = .ok false) := by
  constructor
  · intro file obj s hname habi
    have hval : blacklisted file obj = .ok (decide (leUint64At s 24 ≠ abiConst)) := by
      unfold blacklisted
      rw [hname]
      dsimp only
      rw [if_neg (by decide), if_pos rfl, habi]
    refine ⟨hval, ?_⟩
    rw [hval]
    constructor
    · intro h
      have := Except.ok.inj h
      exact of_decide_eq_true this
    · intro h
      rw [decide_eq_true h]
  · intro file obj hother
    unfold blacklisted
    rcases hname : libNameMatch file with _ | n
    · rfl
    · dsimp only
      obtain ⟨h1, h2, h3, h4⟩ := hother n hname
      rw [if_neg (by tauto), if_neg (by simpa using h4)]

/-- Witness for the amended C4: a mismatching word at offset 24 is
blacklisted, and `libfoo.so.1` is never blacklisted. -/
theorem tls_abi_word_and_other_names_witness :
    libNameMatch "/usr/lib/libnvidia-tls.so.1".data = some "nvidia-tls".data ∧
    blacklisted "/usr/lib/libnvidia-tls.so.1".data ⟨none, none, some (List.replicate 32 7)⟩ =
      .ok true ∧
    blacklisted "/usr/lib/libfoo.so.1".data ⟨none, none, none⟩ = .ok false :=
  ⟨by decide,
    by
      have h := (tls_abi_word_and_other_names.1 "/usr/lib/libnvidia-tls.so.1".data
        ⟨none, none, some (List.replicate 32 7)⟩ (List.replicate 32 7)
        (by decide) rfl).2
      exact h.mpr (by decide),
    tls_abi_word_and_other_names.2 "/usr/lib/libfoo.so.1".data ⟨none, none, none⟩
      (by decide)⟩

/-! ### C5: the order of `dirs` under map iteration -/

/-- A permutation of a two-element list with distinct members is one of
the two arrangements. -/
theorem perm_pair_cases {α : Type} {l : List α} {a b : α} (hab : a ≠ b)
    (h : l.Perm [a, b]) : l = [a, b] ∨ l = [b, a] := by
  obtain ⟨x, y, rfl⟩ := List.length_eq_two.mp (h.length_eq.trans (by simp))
  have hx : x ∈ [a, b] := h.mem_iff.mp (by simp)
  rcases List.mem_pair.mp hx with rfl | rfl
  · have hb : b ∈ [x, y] := h.mem_iff.mpr (by simp)
    rcases List.mem_pair.mp hb with rfl | rfl
    · exact absurd rfl hab
    · exact Or.inl rfl
  · have ha : a ∈ [x, y] := h.mem_iff.mpr (by simp)
    rcases List.mem_pair.mp ha with rfl | rfl
    · exact absurd rfl (fun h2 => hab h2.symm)
    · exact Or.inr rfl

/-- A lookup environment whose map-iteration oracle enumerates the
`Components` map in reversed order — a legal Go map iteration order. -/
def envIterRev : LookupEnv :=
  { drv := some "1".data
    openOk := true
    look := fun _ => ([], [])
    closeErr := false
    whichOut := fun _ => []
    ev := fun p => some p
    iter := fun l => l.reverse }

/-- The volume this environment produces: `lib` and `lib64` descriptors
come **before** `bin`. -/
def volRev : Volume :=
  { Name := "nvidia_driver".data
    Mountpoint := "/usr/local/nvidia".data
    Path := "/v/nvidia_driver".data
    Version := "1".data
    dirs := [⟨lib32Dir, []⟩, ⟨lib64Dir, []⟩, ⟨binDir, []⟩] }

/-- Counterexample to C5 as stated: `for t, c := range vol.Components`
iterates a Go map in unspecified order; with the (legal) reversed order
the produced `dirs` list is `[lib, lib64, bin]`, not the claimed fixed
`[bin, lib, lib64]`. -/
theorem dirs_order_counterexample :
    (envIterRev.iter catComponents).Perm catComponents ∧
    LookupVolumesGo envIterRev "/v".data =
      (some [("nvidia_driver".data, volRev)], none, 1) ∧
    volRev.dirs = [⟨lib32Dir, []⟩, ⟨lib64Dir, []⟩, ⟨binDir, []⟩] ∧
    volRev.dirs ≠ [⟨binDir, []⟩, ⟨lib32Dir, []⟩, ⟨lib64Dir, []⟩] := by
  refine ⟨List.reverse_perm catComponents, by decide, by decide, by decide⟩

/-- Evaluation of the components loop when the map iterates binaries
first. -/
theorem buildDirs_bin_first (env : LookupEnv) :
    buildDirs env [binariesEntry, librariesEntry] [] =
      (whichGo env.ev (env.whichOut driverBins)).map (fun bins =>
        [⟨binDir, bins⟩, ⟨lib32Dir, (env.look driverLibs).1⟩,
         ⟨lib64Dir, (env.look driverLibs).2⟩]) := by
  have hlb : ¬(("libraries".data : Str) = "binaries".data) := by decide
  rcases hwg : whichGo env.ev (env.whichOut driverBins) with _ | bins <;>
    simp [buildDirs, binariesEntry, librariesEntry, hwg, hlb]

/-- Evaluation of the components loop when the map iterates libraries
first. -/
theorem buildDirs_lib_first (env : LookupEnv) :
    buildDirs env [librariesEntry, binariesEntry] [] =
      (whichGo env.ev (env.whichOut driverBins)).map (fun bins =>
        [⟨lib32Dir, (env.look driverLibs).1⟩, ⟨lib64Dir, (env.look driverLibs).2⟩,
         ⟨binDir, bins⟩]) := by
  have hlb : ¬(("libraries".data : Str) = "binaries".data) := by decide
  rcases hwg : whichGo env.ev (env.whichOut driverBins) with _ | bins <;>
    simp [buildDirs, binariesEntry, librariesEntry, hwg, hlb]

/-- C5 as amended: for any iteration order of the `nvidia_driver`
components map (any permutation of its two entries), a successful
`LookupVolumes` produces that volume with `dirs` equal to either
`[bin, lib, lib64]` or `[lib, lib64, bin]`: the 32-bit `lib` descriptor
always immediately precedes `lib64`, but whether `bin` comes first or
last depends on the map iteration order and is not fixed. -/
theorem dirs_order_amended (env : LookupEnv) (pre : Str)
    (vols : List (Str × Volume)) (e : Option LErr) (n : Nat)
    (hiter : (env.iter catComponents).Perm catComponents)
    (h : LookupVolumesGo env pre = (some vols, e, n)) :
    ∃ vol bins l32 l64, vols = [("nvidia_driver".data, vol)] ∧
      (vol.dirs = [⟨binDir, bins⟩, ⟨lib32Dir, l32⟩, ⟨lib64Dir, l64⟩] ∨
       vol.dirs = [⟨lib32Dir, l32⟩, ⟨lib64Dir, l64⟩, ⟨binDir, bins⟩]) := by
  unfold LookupVolumesGo at h
  rcases hdrv : env.drv with _ | drv
  · rw [hdrv] at h
    dsimp only at h
    simp at h
  · rw [hdrv] at h
    dsimp only at h
    rcases hop : env.openOk with _ | _
    · rw [hop, if_neg (by decide)] at h
      simp at h
    · rw [hop, if_pos rfl] at h
      unfold Volumes lookupLoop buildVol at h
      dsimp only at h
      have hiter' : (env.iter catComponents).Perm [binariesEntry, librariesEntry] := hiter
      have hne : binariesEntry ≠ librariesEntry := by decide
      rcases hwg : whichGo env.ev (env.whichOut driverBins) with _ | bins
      all_goals rcases perm_pair_cases hne hiter' with hEq | hEq
      · rw [hEq, buildDirs_bin_first env, hwg] at h
        simp at h
      · rw [hEq, buildDirs_lib_first env, hwg] at h
        simp at h
      · rw [hEq, buildDirs_bin_first env, hwg] at h
        simp only [lookupLoop, Option.map, Prod.mk.injEq, Option.some.injEq] at h
        refine ⟨_, bins, (env.look driverLibs).1, (env.look driverLibs).2,
          h.1.symm, Or.inl ?_⟩
        rfl
      · rw [hEq, buildDirs_lib_first env, hwg] at h
        simp only [lookupLoop, Option.map, Prod.mk.injEq, Option.some.injEq] at h
        refine ⟨_, bins, (env.look driverLibs).1, (env.look driverLibs).2,
          h.1.symm, Or.inr ?_⟩
        rfl

/-- Witness for the amended C5: the reversed iteration order yields the
libraries-first arrangement. -/
theorem dirs_order_amended_witness :
    (envIterRev.iter catComponents).Perm catComponents ∧
    (∃ vol bins l32 l64,
      [("nvidia_driver".data, volRev)] = [("nvidia_driver".data, vol)] ∧
      (vol.dirs = [⟨binDir, bins⟩, ⟨lib32Dir, l32⟩, ⟨lib64Dir, l64⟩] ∨
       vol.dirs = [⟨lib32Dir, l32⟩, ⟨lib64Dir, l64⟩, ⟨binDir, bins⟩])) :=
  ⟨List.reverse_perm catComponents,
    dirs_order_amended envIterRev "/v".data [("nvidia_driver".data, volRev)] none 1
      (List.reverse_perm catComponents) (by decide)⟩

/-! ### C8: the binary resolver -/

/-- C8, part one as a helper: when every (trimmed) line of the external
`which` output is absolute and canonicalizes without error, the loop
returns exactly the canonicalized lines, in order. -/
theorem whichGo_all_ok (ev : Str → Option Str) (canon : Str → Str) :
    ∀ lines : List Str,
      (∀ p ∈ lines, isAbs (trimSpace p) = true) →
      (∀ p ∈ lines, ev (trimSpace p) = some (canon (trimSpace p))) →
      whichGo ev lines = some (lines.map (fun p => canon (trimSpace p)))
  | [], _, _ => rfl
  | line :: rest, habs, hok => by
    unfold whichGo
    rw [if_pos (habs line (List.mem_cons_self _ _)),
      hok line (List.mem_cons_self _ _),
      whichGo_all_ok ev canon rest
        (fun p hp => habs p (List.mem_cons_of_mem _ hp))
        (fun p hp => hok p (List.mem_cons_of_mem _ hp))]
    rfl

/-- C8, part two as a helper: if any absolute line fails to canonicalize,
the whole loop returns an error. -/
theorem whichGo_fails (ev : Str → Option Str) :
    ∀ lines : List Str,
      (∃ p ∈ lines, isAbs (trimSpace p) = true ∧ ev (trimSpace p) = none) →
      whichGo ev lines = none
  | [], h => absurd h (by simp)
  | line :: rest, ⟨p, hp, habs, hev⟩ => by
    unfold whichGo
    dsimp only
    rcases List.mem_cons.mp hp with rfl | hp'
    · rw [if_pos habs, hev]
    · split
      · rcases hline : ev (trimSpace line) with _ | q
        · rfl
        · rw [whichGo_fails ev rest ⟨p, hp', habs, hev⟩]
          rfl
      · exact whichGo_fails ev rest ⟨p, hp', habs, hev⟩

/-- C8: model the external `which` as printing, for each requested name
found on `PATH`, one line with its path (`pathLookup` returning `none`
for names not found).  Then (1) names not found are silently omitted —
the result is the canonicalization of exactly the found lines, with no
error; (2) every returned path is `filepath.EvalSymlinks` of an absolute
trimmed line, so results are absolute whenever canonicalization preserves
absoluteness; (3) any canonicalization failure of a found absolute entry
makes `which` (and hence the whole lookup) return an error. -/
theorem which_omits_missing_canonicalizes_fails_on_eval_error
    (pathLookup : Str → Option Str) (ev : Str → Option Str) (canon : Str → Str)
    (bins : List Str)
    (habs : ∀ p ∈ bins.filterMap pathLookup, isAbs (trimSpace p) = true)
    (hok : ∀ p ∈ bins.filterMap pathLookup,
      ev (trimSpace p) = some (canon (trimSpace p)))
    (hcanonAbs : ∀ p, isAbs p = true → isAbs (canon p) = true) :
    whichGo ev (bins.filterMap pathLookup) =
      some ((bins.filterMap pathLookup).map (fun p => canon (trimSpace p))) ∧
    (∀ r ∈ (bins.filterMap pathLookup).map (fun p => canon (trimSpace p)),
      isAbs r = true) ∧
    (∀ lines : List Str,
      (∃ p ∈ lines, isAbs (trimSpace p) = true ∧ ev (trimSpace p) = none) →
      whichGo ev lines = none) := by
  refine ⟨whichGo_all_ok ev canon _ habs hok, ?_, whichGo_fails ev⟩
  intro r hr
  rcases List.mem_map.mp hr with ⟨p, hp, rfl⟩
  exact hcanonAbs _ (habs p hp)

/-- Witness for C8: two names, one found on PATH and one not; the missing
one is omitted, the found one is canonicalized. -/
def plW : Str → Option Str := fun b =>
  if b = "nvidia-smi".data then some "/usr/bin/nvidia-smi".data else none

def evW : Str → Option Str := fun p =>
  if p = "/usr/bin/nvidia-smi".data then some "/usr/bin/nvidia-smi-370".data else none

def canonW : Str → Str := fun p =>
  if p = "/usr/bin/nvidia-smi".data then "/usr/bin/nvidia-smi-370".data else p

theorem which_omits_missing_canonicalizes_fails_on_eval_error_witness :
    (["nvidia-smi".data, "missing-tool".data].filterMap plW =
      ["/usr/bin/nvidia-smi".data]) ∧
    whichGo evW (["nvidia-smi".data, "missing-tool".data].filterMap plW) =
      some ["/usr/bin/nvidia-smi-370".data] ∧
    whichGo evW ["/not/found/by/ev".data] = none :=
  ⟨by decide,
    by
      have h := (which_omits_missing_canonicalizes_fails_on_eval_error plW evW canonW
        ["nvidia-smi".data, "missing-tool".data]
        (by decide) (by decide)
        (fun p hp => by
          unfold canonW
          split
          · decide
          · exact hp)).1
      rw [h]
      decide,
    (which_omits_missing_canonicalizes_fails_on_eval_error plW evW canonW
      ["nvidia-smi".data, "missing-tool".data]
      (by decide) (by decide)
      (fun p hp => by
        unfold canonW
        split
        · decide
        · exact hp)).2.2 ["/not/found/by/ev".data]
      ⟨"/not/found/by/ev".data, by decide, by decide, by decide⟩⟩

/-! ### C9: the cache handle is closed once; first error wins -/

/-- C9: in every execution where the driver version resolves and
`ldcache.Open` succeeds, the deferred `cache.Close` runs exactly once on
every exit path; when the body failed the returned error is the body's
(`which`) error — never replaced by the close error — and when the body
succeeded the close error (if any) is surfaced as the result. -/
theorem cache_closed_once_first_error_wins (env : LookupEnv) (pre : Str)
    (drv : Str) (hdrv : env.drv = some drv) (hopen : env.openOk = true) :
    (LookupVolumesGo env pre).2.2 = 1 ∧
    ((LookupVolumesGo env pre).1 = none →
      (LookupVolumesGo env pre).2.1 = some LErr.whichE) ∧
    (∀ m, (LookupVolumesGo env pre).1 = some m →
      (LookupVolumesGo env pre).2.1 =
        (if env.closeErr then some LErr.closeE else none)) := by
  unfold LookupVolumesGo
  rw [hdrv]
  dsimp only
  rw [hopen, if_pos rfl]
  rcases hll : lookupLoop env pre drv Volumes with _ | m
  · exact ⟨rfl, fun _ => rfl, fun m hm => Option.noConfusion hm⟩
  · exact ⟨rfl, fun hc => Option.noConfusion hc, fun m0 _ => rfl⟩

/-- Witness for C9: a concrete environment with a successful open; close
runs once and no close error is reported. -/
theorem cache_closed_once_first_error_wins_witness :
    envIterRev.drv = some "1".data ∧ envIterRev.openOk = true ∧
    ((LookupVolumesGo envIterRev "/v".data).2.2 = 1 ∧
      ((LookupVolumesGo envIterRev "/v".data).1 = none →
        (LookupVolumesGo envIterRev "/v".data).2.1 = some LErr.whichE) ∧
      (∀ m, (LookupVolumesGo envIterRev "/v".data).1 = some m →
        (LookupVolumesGo envIterRev "/v".data).2.1 =
          (if envIterRev.closeErr then some LErr.closeE else none))) :=
  ⟨rfl, rfl,
    cache_closed_once_first_error_wins envIterRev "/v".data "1".data rfl rfl⟩

end NvidiaVolumes
